import Mathlib

/-!
# Stock management page: aggregation and optimistic adjustment

A shallow embedding of the logic of `src/pages/StockManagement.jsx` and of the
request wrappers of `src/services/inventoryService.js`.

Conventions of the embedding.

* JavaScript numbers that hold quantities, prices and totals are exact integers (`Int`);
  rounding of binary floating point is not modelled.
* A property that may be absent from an object is an `Option`; `none` is JavaScript's
  `undefined`.
* `createdAt` is the instant `new Date(createdAt)` denotes, in milliseconds since the epoch.
* React state is an explicit record, `PageState`; each asynchronous handler is a function
  from the state before the call and the answers of the backend to the state after it.
-/

namespace StockManagement

/-! ## Data model -/

/-- An item of one of the two catalogs, as the backend serialises it. -/
structure Item where
  _id : Option String
  title : Option String
  price : Option Int
deriving DecidableEq, Repr

/-- What the `item` property of a stock record may hold: nothing, `null`, the bare
identifier of the item, or the populated item object. -/
inductive ItemRef where
  | undefined
  | null
  | id (s : String)
  | obj (o : Item)
deriving DecidableEq, Repr

/-- One row of `GET /stock`. -/
structure StockRecord where
  _id : Option String
  item : ItemRef
  itemType : String
  quantity : Option Int
deriving DecidableEq, Repr

/-- One row of `GET /sales` or of `GET /restock`. -/
structure LedgerRecord where
  _id : String
  menuItem : Option Item
  addons : Option (List Item)
  quantity : Int
  pricePerUnit : Int
  createdAt : Int
deriving DecidableEq, Repr

/-- One line of the recent-activity feed. -/
structure ActivityEntry where
  id : String
  type : String
  itemName : Option String
  qty : Int
  note : String
  timestamp : Int
deriving DecidableEq, Repr

/-- The answer of `GET /users/settings`, as far as the page reads it. -/
structure Settings where
  lowStockThreshold : Option Int
deriving DecidableEq, Repr

/-- The snackbar state. -/
structure Snack where
  «open» : Bool
  msg : String
deriving DecidableEq, Repr

/-- The React state of the page that the handlers below read or write. -/
structure PageState where
  inventory : List StockRecord
  loadingStock : Bool
  transactions : List ActivityEntry
  settings : Settings
  inventoryValue : Int
  snack : Snack
deriving DecidableEq, Repr

/-- The object `useMemo` returns for the summary cards. -/
structure Totals where
  totalItems : Nat
  units : Int
  lowStock : Nat
  value : Int
deriving DecidableEq, Repr

/-! ## JavaScript primitives -/

/-- The expression `x || d` for a numeric property `x` that may be absent: `d` when `x` is
`undefined` or `0`, else `x`. -/
def orDefault (x : Option Int) (d : Int) : Int :=
  match x with
  | some v => if v = 0 then d else v
  | none => d

/-- The method `Array.prototype.sort(cmp)`: a stable sort that puts `a` before `b` when
`cmp a b` is not positive. -/
def jsSort {α : Type} (cmp : α → α → Int) (l : List α) : List α :=
  l.insertionSort (fun a b => cmp a b ≤ 0)

/-! ## Aggregation -/

/-- The `totals` memo (lines 93-98). -/
def totals (inventory : List StockRecord) (settings : Settings) (inventoryValue : Int) : Totals :=
  let totalItems := inventory.length
  let units := inventory.foldl (fun sum item => sum + orDefault item.quantity 0) 0
  let lowStock := (inventory.filter (fun item =>
    decide (orDefault item.quantity 0 < orDefault settings.lowStockThreshold 10))).length
  { totalItems := totalItems, units := units, lowStock := lowStock, value := inventoryValue }

/-- The reducer of lines 64-65: the sum of `quantity * pricePerUnit` over a ledger. -/
def ledgerValue (records : List LedgerRecord) : Int :=
  records.foldl (fun acc r => acc + r.quantity * r.pricePerUnit) 0

/-- The `itemName` expression of lines 71 and 80. -/
def itemNameOf (s : LedgerRecord) : Option String :=
  match s.menuItem with
  | some m => m.title
  | none =>
    match s.addons with
    | some (_ :: _) => some "Addons"
    | _ => some "Unknown"

/-- The projection of a sale (lines 68-75). -/
def formatSale (s : LedgerRecord) : ActivityEntry :=
  { id := s._id
    type := "stock-out"
    itemName := itemNameOf s
    qty := s.quantity
    note := "Sale"
    timestamp := s.createdAt }

/-- The projection of a restock (lines 77-84). -/
def formatRestock (r : LedgerRecord) : ActivityEntry :=
  { id := r._id
    type := "stock-in"
    itemName := itemNameOf r
    qty := r.quantity
    note := "Restock"
    timestamp := r.createdAt }

/-- The comparator of line 86, `new Date(b.timestamp) - new Date(a.timestamp)`. -/
def byTimestampDesc (a b : ActivityEntry) : Int :=
  b.timestamp - a.timestamp

/-- The handler `fetchTransactions` (lines 58-91). `sales` and `restocks` are the answers
of `getSales()` and `getRestocks()`, `none` for a rejected request; `Promise.all` rejects
when either does, and the `catch` block only logs. -/
def fetchTransactions (sales restocks : Option (List LedgerRecord)) (st : PageState) :
    PageState :=
  match sales, restocks with
  | some sales, some restocks =>
    let totalRestockValue := ledgerValue restocks
    let totalSaleValue := ledgerValue sales
    let formattedSales := sales.map formatSale
    let formattedRestocks := restocks.map formatRestock
    let allTransactions := jsSort byTimestampDesc (formattedSales ++ formattedRestocks)
    { st with
      inventoryValue := totalRestockValue - totalSaleValue
      transactions := allTransactions }
  | _, _ => st

/-- The handler `fetchStock` (lines 46-56). `data` is the answer of `getStock()`, `none`
for a rejected request. -/
def fetchStock (data : Option (List StockRecord)) (st : PageState) : PageState :=
  let st := { st with loadingStock := true }
  let st :=
    match data with
    | some data => { st with inventory := data }
    | none => st
  { st with loadingStock := false }

/-! ## Adjustment -/

/-- The expression `it?.item?._id`. -/
def ItemRef.getId : ItemRef → Option String
  | ItemRef.obj o => o._id
  | _ => none

/-- The expression `it?.item === item._id`, with `itemId` the value of `item._id`. -/
def ItemRef.strictEq : ItemRef → Option String → Bool
  | ItemRef.undefined, none => true
  | ItemRef.id s, some t => decide (s = t)
  | _, _ => false

/-- The condition of line 116. -/
def isMatch (it : StockRecord) (item : Item) : Bool :=
  decide (it.item.getId = item._id) || it.item.strictEq item._id

/-- The callback given to `prev.map` in lines 113-120. -/
def adjustRecord (item : Item) (qty : Int) (type : String) (it : StockRecord) : StockRecord :=
  if isMatch it item then
    { it with quantity := some (max 0 (orDefault it.quantity 0 + (if type = "in" then qty else -qty))) }
  else it

/-- The optimistic update of `adjust` (lines 113-120), as a function of `prev`. -/
def optimisticUpdate (item : Item) (qty : Int) (type : String) (prev : List StockRecord) :
    List StockRecord :=
  prev.map (adjustRecord item qty type)

/-- The handler `adjust` (lines 111-134). `posted` tells whether the request of
`apiStockIn` or `apiOrderOut` was fulfilled; `stock`, `sales` and `restocks` are the answers
to the fetches the handler then issues. -/
def adjust (item : Item) (qty : Int) (type : String) (posted : Bool)
    (stock : Option (List StockRecord)) (sales restocks : Option (List LedgerRecord))
    (st : PageState) : PageState :=
  let st := { st with inventory := optimisticUpdate item qty type st.inventory }
  if posted then
    let st := { st with snack :=
      { «open» := true
        msg := (if type = "in" then "Stocked in" else "Ordered out") ++ " successfully" } }
    let st := fetchStock stock st
    fetchTransactions sales restocks st
  else
    let st := { st with snack := { «open» := true, msg := "Adjustment failed" } }
    fetchStock stock st

/-! ## Display filter -/

/-- The truth value JavaScript gives the `item` property of a stock record. -/
def ItemRef.truthy : ItemRef → Bool
  | ItemRef.undefined => false
  | ItemRef.null => false
  | ItemRef.id s => decide (s ≠ "")
  | ItemRef.obj _ => true

/-- The expression `i.item.title`; a bare identifier has no such property. -/
def ItemRef.title : ItemRef → Option String
  | ItemRef.obj o => o.title
  | _ => none

/-- The expression `x || d` for a string property `x` that may be absent: `d` when `x` is
`undefined` or empty, else `x`. -/
def orString (x : Option String) (d : String) : String :=
  match x with
  | some v => if v = "" then d else v
  | none => d

/-- The method `String.prototype.includes`: `q` occurs in `s` as a run of consecutive
characters. -/
def includes (s q : String) : Bool :=
  decide (q.data <:+: s.data)

/-- The `itemName` of line 101, the title the filter resolves for a stock record. -/
def filterItemName (i : StockRecord) : String :=
  if i.item.truthy then orString i.item.title "Unknown Item" else "Unknown Item"

/-- The `filtered` list of lines 100-104. `toLowerCase` is the case mapping of
`String.prototype.toLowerCase`. -/
def filtered (toLowerCase : String → String) (inventory : List StockRecord)
    (category query : String) : List StockRecord :=
  inventory.filter (fun i =>
    let itemName := filterItemName i
    (decide (category = "All") || decide (i.itemType = category))
      && includes (toLowerCase itemName) (toLowerCase query))

/-- The case mapping of the letters `A` to `Z`, which leaves every other character as it is:
what `String.prototype.toLowerCase` does on text without capital letters beyond these. -/
def asciiLowerCase (s : String) : String :=
  String.mk (s.data.map Char.toLower)

/-! ## Requests to the backend -/

/-- The body of a `POST /restock` or `POST /sales` request; `discount` is `none` when the
object has no such key. -/
structure Payload where
  menuItemId : Option String
  quantity : Int
  pricePerUnit : Option Int
  discount : Option Int
  addonIds : List String
deriving DecidableEq, Repr

/-- A call `api.post(path, payload)`. -/
structure PostRequest where
  path : String
  payload : Payload
deriving DecidableEq, Repr

/-- The request of `stockIn` (inventoryService.js, lines 12-21). -/
def stockIn (item : Item) (qty : Int) : PostRequest :=
  let payload : Payload :=
    { menuItemId := item._id
      quantity := qty
      pricePerUnit := item.price
      discount := none
      addonIds := [] }
  { path := "/restock", payload := payload }

/-- The request of `orderOut` (inventoryService.js, lines 23-33). -/
def orderOut (item : Item) (qty : Int) : PostRequest :=
  let payload : Payload :=
    { menuItemId := item._id
      quantity := qty
      pricePerUnit := item.price
      discount := some 0
      addonIds := [] }
  { path := "/sales", payload := payload }

/-- The request `adjust` issues in lines 123-124. -/
def adjustRequest (item : Item) (qty : Int) (type : String) : PostRequest :=
  if type = "in" then stockIn item qty else orderOut item qty

/-! ## Helper lemmas -/

/-- A left fold that adds `f x` to an accumulator is the accumulator plus the sum of `f`. -/
theorem foldl_add_eq_sum {α : Type} (f : α → Int) (l : List α) (init : Int) :
    l.foldl (fun acc x => acc + f x) init = init + (l.map f).sum := by
  induction l generalizing init with
  | nil => simp
  | cons x xs ih => simp [List.foldl_cons, ih, add_assoc]

/-- The reducer of a ledger is the sum of the products `quantity * pricePerUnit`. -/
theorem ledgerValue_eq_sum (records : List LedgerRecord) :
    ledgerValue records = (records.map (fun r => r.quantity * r.pricePerUnit)).sum := by
  unfold ledgerValue
  rw [foldl_add_eq_sum (fun r : LedgerRecord => r.quantity * r.pricePerUnit) records 0]
  simp

/-- For a quantity, `x || 0` is `x` when present and `0` when absent. -/
theorem orDefault_zero (x : Option Int) : orDefault x 0 = x.getD 0 := by
  cases x with
  | none => rfl
  | some v =>
    by_cases h : v = 0
    · simp [orDefault, h]
    · simp [orDefault, h]

/-- The order the comparator of the feed induces: `a` may stand before `b` exactly when
the timestamp of `b` is not later than that of `a`. -/
theorem byTimestampDesc_nonpos (a b : ActivityEntry) :
    byTimestampDesc a b ≤ 0 ↔ b.timestamp ≤ a.timestamp := by
  unfold byTimestampDesc
  omega

/-- The sort only rearranges its input. -/
theorem jsSort_perm {α : Type} (cmp : α → α → Int) (l : List α) :
    (jsSort cmp l).Perm l :=
  List.perm_insertionSort _ l

/-- Stability of the sort: a sublist of the input that already is in comparator order is a
sublist of the output. -/
theorem jsSort_stable {α : Type} (cmp : α → α → Int) {l c : List α}
    (hc : c.Sublist l) (hr : c.Pairwise (fun a b => cmp a b ≤ 0)) :
    c.Sublist (jsSort cmp l) :=
  List.sublist_insertionSort hr hc

/-- Sorting by the feed comparator yields timestamps that never increase. -/
theorem jsSort_byTimestampDesc_pairwise (l : List ActivityEntry) :
    (jsSort byTimestampDesc l).Pairwise (fun a b => b.timestamp ≤ a.timestamp) := by
  haveI : IsTotal ActivityEntry (fun a b => byTimestampDesc a b ≤ 0) :=
    ⟨fun a b => by
      simp only [byTimestampDesc_nonpos]
      exact le_total _ _⟩
  haveI : IsTrans ActivityEntry (fun a b => byTimestampDesc a b ≤ 0) :=
    ⟨fun a b c hab hbc => by
      simp only [byTimestampDesc_nonpos] at *
      exact le_trans hbc hab⟩
  have h := List.sorted_insertionSort (fun a b : ActivityEntry => byTimestampDesc a b ≤ 0) l
  exact List.Pairwise.imp (fun {a b} hab => (byTimestampDesc_nonpos a b).mp hab) h

/-- The entries of one timestamp come out of the sort in the order they went in. -/
theorem jsSort_filter_timestamp (l : List ActivityEntry) (t : Int) :
    (jsSort byTimestampDesc l).filter (fun e => decide (e.timestamp = t))
      = l.filter (fun e => decide (e.timestamp = t)) := by
  have hsub : (l.filter (fun e => decide (e.timestamp = t))).Sublist (jsSort byTimestampDesc l) := by
    apply jsSort_stable byTimestampDesc (List.filter_sublist l)
    rw [List.pairwise_iff_forall_sublist]
    intro a b hab
    have ha : a ∈ l.filter (fun e => decide (e.timestamp = t)) := hab.subset (by simp)
    have hb : b ∈ l.filter (fun e => decide (e.timestamp = t)) := hab.subset (by simp)
    simp only [List.mem_filter, decide_eq_true_eq] at ha hb
    rw [byTimestampDesc_nonpos, ha.2, hb.2]
  have hsub2 := hsub.filter (fun e => decide (e.timestamp = t))
  rw [List.filter_filter] at hsub2
  simp only [Bool.and_self] at hsub2
  have hlen : ((jsSort byTimestampDesc l).filter (fun e => decide (e.timestamp = t))).length
      = (l.filter (fun e => decide (e.timestamp = t))).length :=
    ((jsSort_perm byTimestampDesc l).filter _).length_eq
  exact (hsub2.eq_of_length hlen.symm).symm

/-- The condition of line 116 holds for a record whose item is the item passed to `adjust`,
and for a record that carries the id of that item, as a bare reference or inside its
populated item. -/
theorem isMatch_of_identity (it : StockRecord) (X : Item)
    (h : it.item = ItemRef.obj X
      ∨ ∃ id, X._id = some id
          ∧ (it.item = ItemRef.id id ∨ ∃ o, it.item = ItemRef.obj o ∧ o._id = some id)) :
    isMatch it X = true := by
  rcases h with h | ⟨id, hid, h | ⟨o, ho, hoid⟩⟩
  · simp [isMatch, h, ItemRef.getId]
  · simp [isMatch, h, hid, ItemRef.getId, ItemRef.strictEq]
  · simp [isMatch, ho, hid, hoid, ItemRef.getId]

/-- When the item passed to `adjust` has an id, the condition of line 116 holds exactly for
the records that carry this id. -/
theorem isMatch_iff_of_id (it : StockRecord) (X : Item) (id : String) (hid : X._id = some id) :
    isMatch it X = true
      ↔ (it.item = ItemRef.id id ∨ ∃ o, it.item = ItemRef.obj o ∧ o._id = some id) := by
  cases hitem : it.item with
  | undefined => simp [isMatch, hitem, hid, ItemRef.getId, ItemRef.strictEq]
  | null => simp [isMatch, hitem, hid, ItemRef.getId, ItemRef.strictEq]
  | id s => simp [isMatch, hitem, hid, ItemRef.getId, ItemRef.strictEq]
  | obj o => simp [isMatch, hitem, hid, ItemRef.getId, ItemRef.strictEq]

/-- The optimistic update rewrites the list position by position. -/
theorem optimisticUpdate_getElem? (item : Item) (qty : Int) (type : String)
    (prev : List StockRecord) (i : Nat) :
    (optimisticUpdate item qty type prev)[i]? = (prev[i]?).map (adjustRecord item qty type) := by
  simp [optimisticUpdate]

/-- What the callback of the optimistic update returns for a record that the condition of
line 116 accepts. -/
theorem adjustRecord_of_isMatch (item : Item) (qty : Int) (type : String) (it : StockRecord)
    (h : isMatch it item = true) :
    adjustRecord item qty type it
      = { it with
          quantity := some (max 0 (it.quantity.getD 0 + (if type = "in" then qty else -qty))) } := by
  simp [adjustRecord, h, orDefault_zero]

/-- The method `includes` holds exactly when the text splits around an occurrence of the
query. -/
theorem includes_iff (s q : String) :
    includes s q = true ↔ ∃ pre post : String, s = pre ++ q ++ post := by
  unfold includes
  rw [decide_eq_true_iff]
  constructor
  · rintro ⟨a, b, h⟩
    refine ⟨String.mk a, String.mk b, ?_⟩
    apply String.ext
    simp [String.data_append, h]
  · rintro ⟨pre, post, rfl⟩
    exact ⟨pre.data, post.data, by simp [String.data_append]⟩

/-- The title the filter resolves is the title of the populated item when that is a
non-empty text. -/
theorem filterItemName_of_title (r : StockRecord) (o : Item) (t : String)
    (hitem : r.item = ItemRef.obj o) (htitle : o.title = some t) (ht : t ≠ "") :
    filterItemName r = t := by
  simp [filterItemName, hitem, ItemRef.truthy, ItemRef.title, orString, htitle, ht]

/-- The title the filter resolves is `Unknown Item` for every record without a populated
item that has a non-empty title. -/
theorem filterItemName_of_no_title (r : StockRecord)
    (h : ∀ o t, r.item = ItemRef.obj o → o.title = some t → t = "") :
    filterItemName r = "Unknown Item" := by
  cases hitem : r.item with
  | undefined => simp [filterItemName, hitem, ItemRef.truthy]
  | null => simp [filterItemName, hitem, ItemRef.truthy]
  | id s => simp [filterItemName, hitem, ItemRef.title, orString]
  | obj o =>
    cases htitle : o.title with
    | none => simp [filterItemName, hitem, ItemRef.title, orString, htitle]
    | some t =>
      have ht := h o t hitem htitle
      simp [filterItemName, hitem, ItemRef.title, orString, htitle, ht]

/-- Membership in the filtered list, in the terms of the filter callback. -/
theorem mem_filtered (toLowerCase : String → String) (inventory : List StockRecord)
    (category query : String) (r : StockRecord) :
    r ∈ filtered toLowerCase inventory category query
      ↔ r ∈ inventory ∧ (category = "All" ∨ r.itemType = category)
          ∧ ∃ pre post : String,
              toLowerCase (filterItemName r) = pre ++ toLowerCase query ++ post := by
  simp only [filtered, List.mem_filter, Bool.and_eq_true, Bool.or_eq_true, decide_eq_true_eq,
    includes_iff]

/-! ## Inventory value and totals -/

/-- C1. After `fetchTransactions` has received both ledgers, the inventory value is the sum
over the restocks of `quantity * pricePerUnit` minus the same sum over the sales; nothing
floors it at zero, so it is negative whenever the sale sum exceeds the restock sum; and for
one restock of 10 units at 5 and one sale of 3 units at 5 it is 35. -/
theorem fetchTransactions_inventoryValue (sales restocks : List LedgerRecord) (st : PageState) :
    (fetchTransactions (some sales) (some restocks) st).inventoryValue
        = (restocks.map (fun r => r.quantity * r.pricePerUnit)).sum
          - (sales.map (fun s => s.quantity * s.pricePerUnit)).sum
      ∧ ((restocks.map (fun r => r.quantity * r.pricePerUnit)).sum
            < (sales.map (fun s => s.quantity * s.pricePerUnit)).sum
          → (fetchTransactions (some sales) (some restocks) st).inventoryValue < 0)
      ∧ (fetchTransactions
            (some [{ _id := "s1", menuItem := none, addons := none, quantity := 3,
                     pricePerUnit := 5, createdAt := 2 }])
            (some [{ _id := "r1", menuItem := none, addons := none, quantity := 10,
                     pricePerUnit := 5, createdAt := 1 }]) st).inventoryValue = 35 := by
  have h : (fetchTransactions (some sales) (some restocks) st).inventoryValue
      = (restocks.map (fun r => r.quantity * r.pricePerUnit)).sum
        - (sales.map (fun s => s.quantity * s.pricePerUnit)).sum := by
    simp only [fetchTransactions, ledgerValue_eq_sum]
  refine ⟨h, ?_, ?_⟩
  · intro hlt
    rw [h]
    omega
  · simp [fetchTransactions, ledgerValue]

/-- C2. The `units` field of `totals` is the sum of the quantities of the stock records,
a record without quantity counting for 0. -/
theorem totals_units (inventory : List StockRecord) (settings : Settings) (inventoryValue : Int) :
    (totals inventory settings inventoryValue).units
      = (inventory.map (fun r => r.quantity.getD 0)).sum := by
  simp only [totals]
  rw [foldl_add_eq_sum (fun r : StockRecord => orDefault r.quantity 0) inventory 0]
  simp [orDefault_zero]

/-- C3. The `lowStock` field of `totals` is the number of stock records whose quantity
(0 when absent) is strictly below the threshold: the configured threshold `T` when it is set
and not 0, and 10 when it is unset or 0. -/
theorem totals_lowStock (inventory : List StockRecord) (inventoryValue : Int) :
    (∀ T : Int, T ≠ 0 →
        (totals inventory { lowStockThreshold := some T } inventoryValue).lowStock
          = inventory.countP (fun r => decide (r.quantity.getD 0 < T)))
      ∧ (totals inventory { lowStockThreshold := none } inventoryValue).lowStock
          = inventory.countP (fun r => decide (r.quantity.getD 0 < 10))
      ∧ (totals inventory { lowStockThreshold := some 0 } inventoryValue).lowStock
          = inventory.countP (fun r => decide (r.quantity.getD 0 < 10)) := by
  have h10 : orDefault none 10 = 10 := rfl
  have h0 : orDefault (some 0) 10 = 10 := rfl
  refine ⟨?_, ?_, ?_⟩
  · intro T hT
    have hT' : orDefault (some T) 10 = T := by simp [orDefault, hT]
    simp only [totals, orDefault_zero, List.countP_eq_length_filter, hT']
  · simp only [totals, orDefault_zero, List.countP_eq_length_filter, h10]
  · simp only [totals, orDefault_zero, List.countP_eq_length_filter, h0]

/-! ## Activity feed -/

/-- C4. After `fetchTransactions` has received both ledgers, the activity feed is in
descending order of timestamp: of two adjacent entries the second is never later than the
first, and so for any two entries in feed order. -/
theorem fetchTransactions_feed_sorted (sales restocks : List LedgerRecord) (st : PageState) :
    (∀ (i : Nat) (h : i + 1 < (fetchTransactions (some sales) (some restocks) st).transactions.length),
        ((fetchTransactions (some sales) (some restocks) st).transactions.get ⟨i + 1, h⟩).timestamp
          ≤ ((fetchTransactions (some sales) (some restocks) st).transactions.get
              ⟨i, Nat.lt_of_succ_lt h⟩).timestamp)
      ∧ (fetchTransactions (some sales) (some restocks) st).transactions.Pairwise
          (fun a b => b.timestamp ≤ a.timestamp) := by
  have hp : (fetchTransactions (some sales) (some restocks) st).transactions.Pairwise
      (fun a b => b.timestamp ≤ a.timestamp) := by
    simp only [fetchTransactions]
    exact jsSort_byTimestampDesc_pairwise _
  refine ⟨?_, hp⟩
  intro i h
  rw [List.pairwise_iff_get] at hp
  exact hp ⟨i, Nat.lt_of_succ_lt h⟩ ⟨i + 1, h⟩ (by simp [Fin.lt_def])

/-- C5. Ties keep the merge order. For every timestamp `t`, the feed entries stamped `t` are
the sale entries stamped `t` in ledger order followed by the restock entries stamped `t` in
ledger order; so the entry of a sale stands before the entry of a restock of the same
timestamp, and two records of one ledger with the same timestamp keep their ledger order. -/
theorem fetchTransactions_feed_stable (sales restocks : List LedgerRecord) (st : PageState) :
    (∀ t : Int,
        (fetchTransactions (some sales) (some restocks) st).transactions.filter
            (fun e => decide (e.timestamp = t))
          = (sales.map formatSale).filter (fun e => decide (e.timestamp = t))
            ++ (restocks.map formatRestock).filter (fun e => decide (e.timestamp = t)))
      ∧ (∀ s ∈ sales, ∀ r ∈ restocks, s.createdAt = r.createdAt →
          [formatSale s, formatRestock r].Sublist
            (fetchTransactions (some sales) (some restocks) st).transactions)
      ∧ (∀ a b : LedgerRecord, a.createdAt = b.createdAt →
          ([a, b].Sublist sales → [formatSale a, formatSale b].Sublist
            (fetchTransactions (some sales) (some restocks) st).transactions)
          ∧ ([a, b].Sublist restocks → [formatRestock a, formatRestock b].Sublist
            (fetchTransactions (some sales) (some restocks) st).transactions)) := by
  have hfeed : (fetchTransactions (some sales) (some restocks) st).transactions
      = jsSort byTimestampDesc (sales.map formatSale ++ restocks.map formatRestock) := rfl
  rw [hfeed]
  refine ⟨?_, ?_, ?_⟩
  · intro t
    rw [jsSort_filter_timestamp, List.filter_append]
  · intro s hs r hr hsr
    apply jsSort_stable
    · have h1 : [formatSale s].Sublist (sales.map formatSale) :=
        List.singleton_sublist.mpr (List.mem_map_of_mem _ hs)
      have h2 : [formatRestock r].Sublist (restocks.map formatRestock) :=
        List.singleton_sublist.mpr (List.mem_map_of_mem _ hr)
      exact h1.append h2
    · simp [byTimestampDesc, formatSale, formatRestock, hsr]
  · intro a b hab
    constructor
    · intro h
      apply jsSort_stable
      · exact (List.Sublist.map formatSale h).trans (List.sublist_append_left _ _)
      · simp [byTimestampDesc, formatSale, hab]
    · intro h
      apply jsSort_stable
      · exact (List.Sublist.map formatRestock h).trans (List.sublist_append_right _ _)
      · simp [byTimestampDesc, formatRestock, hab]

/-- C6. Every sale has an entry in the feed with the id, quantity and creation timestamp of
the sale, direction `stock-out` and note `Sale`; every restock has one with direction
`stock-in` and note `Restock`. In both the item name is the title of the menu item when the
record has a menu item, else `Addons` when its addon list is not empty, else `Unknown`. -/
theorem fetchTransactions_feed_entries (sales restocks : List LedgerRecord) (st : PageState) :
    (∀ s ∈ sales, ∃ e ∈ (fetchTransactions (some sales) (some restocks) st).transactions,
        e.id = s._id ∧ e.type = "stock-out" ∧ e.note = "Sale" ∧ e.qty = s.quantity
          ∧ e.timestamp = s.createdAt
          ∧ (∀ m, s.menuItem = some m → e.itemName = m.title)
          ∧ (s.menuItem = none → (∃ a as, s.addons = some (a :: as)) →
              e.itemName = some "Addons")
          ∧ (s.menuItem = none → (s.addons = none ∨ s.addons = some []) →
              e.itemName = some "Unknown"))
      ∧ (∀ r ∈ restocks, ∃ e ∈ (fetchTransactions (some sales) (some restocks) st).transactions,
        e.id = r._id ∧ e.type = "stock-in" ∧ e.note = "Restock" ∧ e.qty = r.quantity
          ∧ e.timestamp = r.createdAt
          ∧ (∀ m, r.menuItem = some m → e.itemName = m.title)
          ∧ (r.menuItem = none → (∃ a as, r.addons = some (a :: as)) →
              e.itemName = some "Addons")
          ∧ (r.menuItem = none → (r.addons = none ∨ r.addons = some []) →
              e.itemName = some "Unknown")) := by
  have hfeed : (fetchTransactions (some sales) (some restocks) st).transactions
      = jsSort byTimestampDesc (sales.map formatSale ++ restocks.map formatRestock) := rfl
  have hname : ∀ x : LedgerRecord,
      (∀ m, x.menuItem = some m → itemNameOf x = m.title)
        ∧ (x.menuItem = none → (∃ a as, x.addons = some (a :: as)) →
            itemNameOf x = some "Addons")
        ∧ (x.menuItem = none → (x.addons = none ∨ x.addons = some []) →
            itemNameOf x = some "Unknown") := by
    intro x
    refine ⟨?_, ?_, ?_⟩
    · intro m hm
      simp [itemNameOf, hm]
    · rintro hm ⟨a, as, ha⟩
      simp [itemNameOf, hm, ha]
    · rintro hm (ha | ha) <;> simp [itemNameOf, hm, ha]
  rw [hfeed]
  constructor
  · intro s hs
    refine ⟨formatSale s, ?_, rfl, rfl, rfl, rfl, rfl, hname s⟩
    exact (jsSort_perm _ _).mem_iff.mpr
      (List.mem_append_left _ (List.mem_map_of_mem _ hs))
  · intro r hr
    refine ⟨formatRestock r, ?_, rfl, rfl, rfl, rfl, rfl, hname r⟩
    exact (jsSort_perm _ _).mem_iff.mpr
      (List.mem_append_right _ (List.mem_map_of_mem _ hr))

/-! ## Optimistic adjustment -/

/-- C7. For a stock list that holds at position `i` a record for item `X` with quantity `q`
(0 when absent, and not negative, as the data model has it), and for every quantity `n`
that is not negative, the optimistic update of `adjust(X, n, "in", note)` holds at position
`i` the same record with quantity `q + n`. -/
theorem optimisticUpdate_in (prev : List StockRecord) (X : Item) (n : Int) (i : Nat)
    (it : StockRecord) (hi : prev[i]? = some it)
    (hX : it.item = ItemRef.obj X
      ∨ ∃ id, X._id = some id
          ∧ (it.item = ItemRef.id id ∨ ∃ o, it.item = ItemRef.obj o ∧ o._id = some id))
    (hq : 0 ≤ it.quantity.getD 0) (hn : 0 ≤ n) :
    (optimisticUpdate X n "in" prev)[i]?
      = some { it with quantity := some (it.quantity.getD 0 + n) } := by
  have hm := isMatch_of_identity it X hX
  rw [optimisticUpdate_getElem?, hi, Option.map_some', adjustRecord_of_isMatch _ _ _ _ hm]
  simp [max_eq_right (add_nonneg hq hn)]

/-- C7, witness. Item `X` at 10, adjusted in by 5, stands at 15. -/
theorem optimisticUpdate_in_witness :
    (optimisticUpdate { _id := some "x", title := some "X", price := some 4 } 5 "in"
        [{ _id := some "a"
           item := ItemRef.obj { _id := some "x", title := some "X", price := some 4 }
           itemType := "MenuItem"
           quantity := some 10 }])[0]?
      = some { _id := some "a"
               item := ItemRef.obj { _id := some "x", title := some "X", price := some 4 }
               itemType := "MenuItem"
               quantity := some 15 } :=
  optimisticUpdate_in
    [{ _id := some "a"
       item := ItemRef.obj { _id := some "x", title := some "X", price := some 4 }
       itemType := "MenuItem"
       quantity := some 10 }]
    { _id := some "x", title := some "X", price := some 4 } 5 0
    { _id := some "a"
      item := ItemRef.obj { _id := some "x", title := some "X", price := some 4 }
      itemType := "MenuItem"
      quantity := some 10 }
    rfl (Or.inl rfl) (by decide) (by decide)

/-- C8. The optimistic update never produces a negative quantity: when no record of the
stock list has a negative quantity, no record of the updated list has one, for every item,
quantity and direction; and a record for item `X` with quantity `q` (0 when absent) gets
`max 0 (q - n)` for direction `out`. -/
theorem optimisticUpdate_nonneg (prev : List StockRecord) (X : Item) (n : Int) (type : String)
    (hprev : ∀ r ∈ prev, ∀ q, r.quantity = some q → 0 ≤ q) :
    (∀ r ∈ optimisticUpdate X n type prev, ∀ q, r.quantity = some q → 0 ≤ q)
      ∧ (∀ (i : Nat) (it : StockRecord), prev[i]? = some it →
          (it.item = ItemRef.obj X
            ∨ ∃ id, X._id = some id
                ∧ (it.item = ItemRef.id id ∨ ∃ o, it.item = ItemRef.obj o ∧ o._id = some id)) →
          (optimisticUpdate X n "out" prev)[i]?
            = some { it with quantity := some (max 0 (it.quantity.getD 0 - n)) }) := by
  constructor
  · intro r hr q hq
    simp only [optimisticUpdate, List.mem_map] at hr
    obtain ⟨it, hit, rfl⟩ := hr
    by_cases hm : isMatch it X = true
    · rw [adjustRecord_of_isMatch _ _ _ _ hm] at hq
      simp only [Option.some.injEq] at hq
      rw [← hq]
      exact le_max_left _ _
    · have : adjustRecord X n type it = it := by simp [adjustRecord, hm]
      rw [this] at hq
      exact hprev it hit q hq
  · intro i it hi hX
    have hm := isMatch_of_identity it X hX
    rw [optimisticUpdate_getElem?, hi, Option.map_some', adjustRecord_of_isMatch _ _ _ _ hm]
    simp [sub_eq_add_neg]

/-- C8, witness. Item `X` at 5, adjusted out by 20, stands at 0. -/
theorem optimisticUpdate_nonneg_witness :
    (∀ r ∈ [({ _id := some "a"
               item := ItemRef.obj { _id := some "x", title := some "X", price := some 4 }
               itemType := "MenuItem"
               quantity := some 5 } : StockRecord)],
        ∀ q, r.quantity = some q → 0 ≤ q)
      ∧ (optimisticUpdate { _id := some "x", title := some "X", price := some 4 } 20 "out"
          [{ _id := some "a"
             item := ItemRef.obj { _id := some "x", title := some "X", price := some 4 }
             itemType := "MenuItem"
             quantity := some 5 }])[0]?
        = some { _id := some "a"
                 item := ItemRef.obj { _id := some "x", title := some "X", price := some 4 }
                 itemType := "MenuItem"
                 quantity := some 0 } := by
  have hprev : ∀ r ∈ [({ _id := some "a"
                         item := ItemRef.obj { _id := some "x", title := some "X", price := some 4 }
                         itemType := "MenuItem"
                         quantity := some 5 } : StockRecord)],
      ∀ q, r.quantity = some q → 0 ≤ q := by
    intro r hr q hq
    simp only [List.mem_singleton] at hr
    subst hr
    simp only [Option.some.injEq] at hq
    omega
  refine ⟨hprev, ?_⟩
  exact (optimisticUpdate_nonneg _ { _id := some "x", title := some "X", price := some 4 } 20
    "out" hprev).2 0 _ rfl (Or.inl rfl)

/-- C9, on the code. For an item without id, as the table passes for a row whose item is
missing, the optimistic update changes every record that has no item, only a bare
reference, or an item without id: here each of the four goes from 5 to 6, and only the
record whose item has an id is left alone. -/
theorem optimisticUpdate_item_without_id :
    optimisticUpdate { _id := none, title := none, price := none } 1 "in"
        [{ _id := some "a", item := ItemRef.undefined, itemType := "MenuItem", quantity := some 5 },
         { _id := some "b", item := ItemRef.null, itemType := "Addon", quantity := some 5 },
         { _id := some "c", item := ItemRef.id "y", itemType := "MenuItem", quantity := some 5 },
         { _id := some "d"
           item := ItemRef.obj { _id := none, title := some "Tea", price := some 2 }
           itemType := "MenuItem"
           quantity := some 5 },
         { _id := some "e"
           item := ItemRef.obj { _id := some "z", title := some "Milk", price := some 3 }
           itemType := "MenuItem"
           quantity := some 5 }]
      = [{ _id := some "a", item := ItemRef.undefined, itemType := "MenuItem", quantity := some 6 },
         { _id := some "b", item := ItemRef.null, itemType := "Addon", quantity := some 6 },
         { _id := some "c", item := ItemRef.id "y", itemType := "MenuItem", quantity := some 6 },
         { _id := some "d"
           item := ItemRef.obj { _id := none, title := some "Tea", price := some 2 }
           itemType := "MenuItem"
           quantity := some 6 },
         { _id := some "e"
           item := ItemRef.obj { _id := some "z", title := some "Milk", price := some 3 }
           itemType := "MenuItem"
           quantity := some 5 }] := by
  decide

/-- When the request of `adjust` is rejected and the stock fetch that follows answers
`data`, the page holds `data` as its stock list, whatever the item, quantity and direction
were: the state is the one a fresh `fetchStock` leaves, but for the failure notice. -/
theorem adjust_failure_reconciles (item : Item) (qty : Int) (type : String)
    (data : List StockRecord) (sales restocks : Option (List LedgerRecord)) (st : PageState) :
    (adjust item qty type false (some data) sales restocks st).inventory = data
      ∧ (adjust item qty type false (some data) sales restocks st).inventory
          = (fetchStock (some data) st).inventory
      ∧ adjust item qty type false (some data) sales restocks st
          = { fetchStock (some data) st with
              snack := { «open» := true, msg := "Adjustment failed" } } := by
  refine ⟨rfl, rfl, rfl⟩

/-- What `adjust` leaves when both its request and the stock fetch that follows are
rejected: `fetchStock` only logs, so the stock list stays the optimistic one. -/
theorem adjust_failure_fetch_rejected (item : Item) (qty : Int) (type : String)
    (sales restocks : Option (List LedgerRecord)) (st : PageState) :
    (adjust item qty type false none sales restocks st).inventory
      = optimisticUpdate item qty type st.inventory := by
  rfl

/-- C10, on the code. Item `X` stands at 10 and is adjusted out by 1; the request to
`/sales` is rejected and so is the stock fetch of the `catch` block. The page then shows the
failure notice and still holds `X` at 9: the optimistic update is retained, and the stock
list is not the one held before the adjustment. -/
theorem adjust_failure_keeps_optimistic :
    (adjust { _id := some "x", title := some "X", price := some 4 } 1 "out" false none none none
        { inventory :=
            [{ _id := some "a"
               item := ItemRef.obj { _id := some "x", title := some "X", price := some 4 }
               itemType := "MenuItem"
               quantity := some 10 }]
          loadingStock := false
          transactions := []
          settings := { lowStockThreshold := some 10 }
          inventoryValue := 0
          snack := { «open» := false, msg := "" } })
      = { inventory :=
            [{ _id := some "a"
               item := ItemRef.obj { _id := some "x", title := some "X", price := some 4 }
               itemType := "MenuItem"
               quantity := some 9 }]
          loadingStock := false
          transactions := []
          settings := { lowStockThreshold := some 10 }
          inventoryValue := 0
          snack := { «open» := true, msg := "Adjustment failed" } } := by
  decide

/-! ## Display filter, ledger failure and requests -/

/-- C11. The display filter returns exactly the stock records whose type is the category
(every record for the category `All`) and whose resolved item title contains the query once
both are lower-cased, in the order of the stock list; with category `Addon` and query `choc`
every record returned is addon-typed and its lower-cased resolved title contains the
lower-cased `choc`. The resolved title is the title of the populated item when that is not
empty, and `Unknown Item` otherwise. -/
theorem filtered_spec (toLowerCase : String → String) (inventory : List StockRecord)
    (category query : String) :
    (∀ r, r ∈ filtered toLowerCase inventory category query
        ↔ r ∈ inventory ∧ (category = "All" ∨ r.itemType = category)
            ∧ ∃ pre post : String,
                toLowerCase (filterItemName r) = pre ++ toLowerCase query ++ post)
      ∧ (∀ p : StockRecord → Bool,
          (∀ r, p r = true ↔ ((category = "All" ∨ r.itemType = category)
            ∧ ∃ pre post : String,
                toLowerCase (filterItemName r) = pre ++ toLowerCase query ++ post)) →
          filtered toLowerCase inventory category query = inventory.filter p)
      ∧ (∀ r ∈ filtered toLowerCase inventory "Addon" "choc",
          r.itemType = "Addon"
            ∧ ∃ pre post : String,
                toLowerCase (filterItemName r) = pre ++ toLowerCase "choc" ++ post)
      ∧ (∀ (r : StockRecord) (o : Item) (t : String),
          r.item = ItemRef.obj o → o.title = some t → t ≠ "" → filterItemName r = t)
      ∧ (∀ r : StockRecord,
          (∀ o t, r.item = ItemRef.obj o → o.title = some t → t = "") →
          filterItemName r = "Unknown Item") := by
  refine ⟨mem_filtered toLowerCase inventory category query, ?_, ?_,
    filterItemName_of_title, filterItemName_of_no_title⟩
  · intro p hp
    unfold filtered
    apply List.filter_congr
    intro r _
    rw [Bool.eq_iff_iff, hp r]
    simp only [Bool.and_eq_true, Bool.or_eq_true, decide_eq_true_eq, includes_iff]
  · intro r hr
    rw [mem_filtered] at hr
    obtain ⟨_, hcat, hq⟩ := hr
    refine ⟨?_, hq⟩
    rcases hcat with h | h
    · exact absurd h (by decide)
    · exact h

/-- C12. When the fetch of the sales or of the restocks is rejected, `fetchTransactions`
leaves the inventory value and the activity feed, and the whole page state, as they were
before the call, whatever the other ledger answered. -/
theorem fetchTransactions_failure (sales restocks : Option (List LedgerRecord))
    (st : PageState) :
    (fetchTransactions none restocks st).inventoryValue = st.inventoryValue
      ∧ (fetchTransactions none restocks st).transactions = st.transactions
      ∧ (fetchTransactions sales none st).inventoryValue = st.inventoryValue
      ∧ (fetchTransactions sales none st).transactions = st.transactions
      ∧ fetchTransactions none restocks st = st
      ∧ fetchTransactions sales none st = st := by
  have h1 : fetchTransactions none restocks st = st := by
    cases restocks <;> rfl
  have h2 : fetchTransactions sales none st = st := by
    cases sales <;> rfl
  rw [h1, h2]
  exact ⟨rfl, rfl, rfl, rfl, rfl, rfl⟩

/-- C13. The request of `stockIn` is a post to `/restock` with the id of the item as
`menuItemId`, the given quantity, the price of the item as `pricePerUnit` and no addon ids;
the request of `orderOut` is a post to `/sales` with the same four fields and discount 0;
`adjust` issues the first for direction `in` and the second for direction `out`, as for
every direction other than `in`. -/
theorem adjust_requests (item : Item) (qty : Int) :
    stockIn item qty
        = { path := "/restock"
            payload := { menuItemId := item._id, quantity := qty, pricePerUnit := item.price
                         discount := none, addonIds := [] } }
      ∧ orderOut item qty
        = { path := "/sales"
            payload := { menuItemId := item._id, quantity := qty, pricePerUnit := item.price
                         discount := some 0, addonIds := [] } }
      ∧ adjustRequest item qty "in" = stockIn item qty
      ∧ adjustRequest item qty "out" = orderOut item qty
      ∧ (∀ type : String, type ≠ "in" → adjustRequest item qty type = orderOut item qty) := by
  refine ⟨rfl, rfl, ?_, ?_, ?_⟩
  · simp [adjustRequest]
  · simp [adjustRequest]
  · intro type h
    simp [adjustRequest, h]

/-- C14. The optimistic update keeps the frame: the updated list has the length of the
stock list, and at every position it holds the record of that position with the same id,
item and type, which is unchanged when the condition of line 116 does not accept it and
differs from the original in nothing but its quantity when it does. -/
theorem optimisticUpdate_frame (item : Item) (qty : Int) (type : String)
    (prev : List StockRecord) :
    (optimisticUpdate item qty type prev).length = prev.length
      ∧ (∀ (i : Nat) (it : StockRecord), prev[i]? = some it →
          ∃ it2, (optimisticUpdate item qty type prev)[i]? = some it2
            ∧ it2._id = it._id ∧ it2.item = it.item ∧ it2.itemType = it.itemType
            ∧ it2 = { it with quantity := it2.quantity }
            ∧ (isMatch it item = false → it2 = it)) := by
  constructor
  · simp [optimisticUpdate]
  · intro i it hi
    refine ⟨adjustRecord item qty type it, ?_, ?_⟩
    · rw [optimisticUpdate_getElem?, hi, Option.map_some']
    · by_cases hm : isMatch it item = true
      · rw [adjustRecord_of_isMatch _ _ _ _ hm]
        simp [hm]
      · have hfix : adjustRecord item qty type it = it := by simp [adjustRecord, hm]
        rw [hfix]
        simp

/-- C15. After `fetchTransactions` has received both ledgers, the activity feed is a
permutation of the sale entries followed by the restock entries: it has as many entries as
there are sales and restocks, and every entry occurs in it as often as among the
projections. -/
theorem fetchTransactions_feed_perm (sales restocks : List LedgerRecord) (st : PageState) :
    (fetchTransactions (some sales) (some restocks) st).transactions.Perm
        (sales.map formatSale ++ restocks.map formatRestock)
      ∧ (fetchTransactions (some sales) (some restocks) st).transactions.length
          = sales.length + restocks.length
      ∧ (∀ e : ActivityEntry,
          (fetchTransactions (some sales) (some restocks) st).transactions.count e
            = (sales.map formatSale).count e + (restocks.map formatRestock).count e) := by
  have hperm : (fetchTransactions (some sales) (some restocks) st).transactions.Perm
      (sales.map formatSale ++ restocks.map formatRestock) :=
    jsSort_perm byTimestampDesc _
  refine ⟨hperm, ?_, ?_⟩
  · rw [hperm.length_eq]
    simp
  · intro e
    rw [hperm.count_eq e, List.count_append]

/-- The filter on a stock list of five records, with the case mapping of the letters `A` to
`Z`: category `Addon` and query `choc` keep the two addons whose title contains the query
in some casing, and drop the menu item, the addon without the query and the addon without
title. -/
theorem filtered_example :
    (filtered asciiLowerCase
        [{ _id := some "a"
           item := ItemRef.obj { _id := some "1", title := some "Chocolate Sauce", price := some 4 }
           itemType := "Addon"
           quantity := some 3 },
         { _id := some "b"
           item := ItemRef.obj { _id := some "2", title := some "Hot CHOC", price := some 9 }
           itemType := "MenuItem"
           quantity := some 7 },
         { _id := some "c"
           item := ItemRef.obj { _id := some "3", title := some "dark cHoCo chips", price := some 2 }
           itemType := "Addon"
           quantity := some 1 },
         { _id := some "d"
           item := ItemRef.obj { _id := some "4", title := some "Vanilla", price := some 2 }
           itemType := "Addon"
           quantity := some 5 },
         { _id := some "e", item := ItemRef.id "5", itemType := "Addon", quantity := none }]
        "Addon" "choc").map (fun r => r._id)
      = [some "a", some "c"] := by
  decide

end StockManagement
